import Mathlib

/-!
Shallow embedding of two Node.js servers:
a static asset server (`Full Stack---1/index.js`) and a form persistence
service (`Full stack--2/index.js`).  Paths are modelled as strings over
POSIX separators; the interesting path functions (`path.resolve`,
`path.extname`, `String.prototype.startsWith`) are embedded over the
character lists of the strings.
-/

namespace StaticServer

/-- One step of POSIX path normalisation over a reversed stack of segments:
empty and current-directory segments are dropped, a parent-directory
segment pops the stack (staying at the root when the stack is empty),
anything else is pushed. -/
def normStep (acc : List String) (seg : String) : List String :=
  if seg = "" ∨ seg = "." then acc
  else if seg = ".." then acc.tail
  else seg :: acc

/-- Split a string on the slash character, as JS path handling does. -/
def splitSlashAux : List Char → List Char → List String
  | [], acc => [String.mk acc.reverse]
  | c :: cs, acc =>
    if c = '/' then String.mk acc.reverse :: splitSlashAux cs []
    else splitSlashAux cs (c :: acc)

def splitSlash (s : String) : List String :=
  splitSlashAux s.data []

/-- Node `path.resolve(base, rel)` for an absolute `base`: join with a
separator and normalise; the result is the segment list of the resolved
absolute path. -/
def resolveSegs (base rel : String) : List String :=
  ((splitSlash (base ++ "/" ++ rel)).foldl normStep []).reverse

/-- Join normalised segments with slashes. -/
def joinSegs : List String → String
  | [] => ""
  | [s] => s
  | s :: r :: rest => s ++ "/" ++ joinSegs (r :: rest)

/-- Render a resolved segment list as an absolute path string. -/
def segsToString (segs : List String) : String :=
  "/" ++ joinSegs segs

/-- JS `s.startsWith(p)`: `p` is a character-level prefix of `s`. -/
def jsStartsWith (s p : String) : Bool :=
  p.data.isPrefixOf s.data

/-- Characters of the final path segment (Node basename of the path). -/
def basenameChars (cs : List Char) : List Char :=
  cs.foldl (fun acc c => if c = '/' then [] else acc ++ [c]) []

/-- Scan for the extension started by the last dot seen so far
(accumulated reversed). -/
def extScan : List Char → Option (List Char) → Option (List Char)
  | [], cur => cur
  | c :: cs, cur =>
    if c = '.' then extScan cs (some ['.'])
    else
      match cur with
      | none => extScan cs none
      | some l => extScan cs (some (c :: l))

/-- Node `path.extname`: the extension of the basename, from its last dot
to the end; a dot that is the first character of the basename does not
start an extension, and a basename without a dot has extension `""`. -/
def extname (p : String) : String :=
  match basenameChars p.data with
  | [] => ""
  | _ :: rest =>
    match extScan rest none with
    | none => ""
    | some l => String.mk l.reverse

/-- The fixed extension-to-MIME table of the static server. -/
def mimeTypes : List (String × String) :=
  [(".html", "text/html"),
   (".css", "text/css"),
   (".js", "application/javascript"),
   (".png", "image/png"),
   (".jpg", "image/jpeg"),
   (".gif", "image/gif"),
   (".ico", "image/x-icon")]

/-- An HTTP request as the handler sees it: the handler destructures only
`req.url`; the method is carried but never read by the source. -/
structure Request where
  method : String
  url : String

/-- The filesystem visible to `readFile`: a finite map from absolute path
strings to file contents; a missing key is a read error. -/
structure FS where
  files : List (String × String)

/-- The response produced by the request handler, together with the path
passed to `readFile` (`none` when the traversal guard answered before any
filesystem access). -/
structure HandlerResult where
  status : Nat
  contentType : Option String
  body : String
  readPath : Option String
deriving DecidableEq

/-- The request handler of `createServer` in `Full Stack---1/index.js`:
map `/` to `/index.html`, resolve against the public root, answer 403 on
the `startsWith` traversal guard, otherwise read the file and answer 404
on read error or 200 with the MIME type looked up from the extension. -/
def serve (dirname : String) (fs : FS) (req : Request) : HandlerResult :=
  let filePath0 := if req.url = "/" then "/index.html" else req.url
  let publicDir := segsToString (resolveSegs dirname "public")
  let filePath := segsToString (resolveSegs publicDir ("." ++ filePath0))
  if !(jsStartsWith filePath publicDir) then
    ⟨403, none, "Forbidden", none⟩
  else
    match fs.files.lookup filePath with
    | none => ⟨404, none, "Not Found", some filePath⟩
    | some data =>
      ⟨200, some ((mimeTypes.lookup (extname filePath)).getD "application/octet-stream"),
        data, some filePath⟩

end StaticServer

namespace FormService

/-- A persisted submission record, as written to `data/submissions.json`. -/
structure Submission where
  id : Nat
  name : String
  email : String
  phone : String
  message : String
  timestamp : String
deriving DecidableEq

/-- The backing document `data/submissions.json`: absent (never written),
unreadable or unparsable (a read error), or present with parsed records. -/
inductive FileState where
  | absent
  | corrupt
  | present (records : List Submission)
deriving DecidableEq

/-- Model of `readData`: an absent file yields the empty collection, and any read
or parse error is caught inside the function and also yields the empty
collection, so `readData` never fails. -/
def readData : FileState → List Submission
  | FileState.absent => []
  | FileState.corrupt => []
  | FileState.present rs => rs

/-- Model of `writeData`: the write either succeeds and replaces the document, or
fails; the failure is caught and only logged, leaving the document as it
was.  The boolean is the environment's choice of whether the write
succeeds. -/
def writeData (ok : Bool) (st : FileState) (rs : List Submission) : FileState :=
  if ok then FileState.present rs else st

/-- The fields destructured from `req.body` in the submit route; `none`
models an absent field. -/
structure SubmitBody where
  name : Option String
  email : Option String
  phone : Option String
  message : Option String

/-- JS falsiness of an optional string field: `!x` is true exactly when
the field is absent or the empty string. -/
def jsFalsy : Option String → Bool
  | none => true
  | some s => s = ""

/-- JS `x || ''` on an optional string field. -/
def jsOr : Option String → String
  | none => ""
  | some s => if s = "" then "" else s

/-- The outcome of a request that may rewrite the backing document: the
redirect target sent to the client and the document afterwards. -/
structure SubmitRes where
  location : String
  state : FileState

/-- Model of `app.post('/submit')`: reject when name or email is falsy, otherwise
read the existing data, append one record built from the body with
`id = Date.now()` (the argument `now`) and the current ISO timestamp
(the argument `nowISO`), write the whole collection back, and redirect to
the display page.  `writeOk` is the environment's choice of whether the
write succeeds; a failed write is logged only and the redirect still
happens. -/
def submit (writeOk : Bool) (now : Nat) (nowISO : String)
    (st : FileState) (body : SubmitBody) : SubmitRes :=
  if jsFalsy body.name || jsFalsy body.email then
    ⟨"/?message=Name and email are required", st⟩
  else
    let existingData := readData st
    let newSubmission : Submission :=
      { id := now
        name := body.name.getD ""
        email := body.email.getD ""
        phone := jsOr body.phone
        message := jsOr body.message
        timestamp := nowISO }
    let updated := existingData ++ [newSubmission]
    ⟨"/display", writeData writeOk st updated⟩

/-- What a GET route hands to the template engine. -/
structure PageView where
  template : String
  submissions : List Submission
  message : Option String
deriving DecidableEq

/-- Model of `app.get('/')`: render the form with the optional query message; the
route never touches the backing document, which is returned unchanged. -/
def getForm (st : FileState) (msg : Option String) : PageView × FileState :=
  (⟨"form", [], msg⟩, st)

/-- Model of `app.get('/display')`: load the collection and render it reversed
(latest first).  The in-place `Array.prototype.reverse` mutates only the
per-request array parsed by `readData`; no write to the document occurs,
so the document is returned unchanged. -/
def getDisplay (st : FileState) : PageView × FileState :=
  (⟨"display", (readData st).reverse, none⟩, st)

/-- A JSON response of the raw listing endpoint. -/
structure ApiResponse where
  status : Nat
  body : List Submission
deriving DecidableEq

/-- Model of `app.get('/api/data')`: the try block loads the collection with
`readData` and sends it as JSON with status 200.  Because `readData`
catches every read and parse error internally and returns the empty
collection instead of throwing, the catch branch that would answer
status 500 with an error object can never run; no write to the document
occurs. -/
def apiData (st : FileState) : ApiResponse × FileState :=
  (⟨200, readData st⟩, st)

/-- The record `submit` builds from its inputs in the valid case. -/
def mkRecord (now : Nat) (nowISO : String) (body : SubmitBody) : Submission :=
  { id := now
    name := body.name.getD ""
    email := body.email.getD ""
    phone := jsOr body.phone
    message := jsOr body.message
    timestamp := nowISO }

/-- Sequential submissions: fold `submit` with succeeding writes over a
list of (time, ISO timestamp, body) inputs. -/
def submitAll : FileState → List (Nat × String × SubmitBody) → FileState
  | st, [] => st
  | st, (now, nowISO, body) :: rest => submitAll (submit true now nowISO st body).state rest

end FormService

namespace StaticServer

lemma isPrefixOf_append_self (l m : List Char) : l.isPrefixOf (l ++ m) = true := by
  induction l with
  | nil => simp [List.isPrefixOf]
  | cons a as ih => simp [List.isPrefixOf, ih]

lemma joinSegs_cons_cons (s r : String) (rest : List String) :
    joinSegs (s :: r :: rest) = s ++ "/" ++ joinSegs (r :: rest) := rfl

lemma joinSegs_data : ∀ (xs : List String) (y : String) (ys : List String),
    ∃ t, (joinSegs (xs ++ y :: ys)).data = (joinSegs xs).data ++ t
  | [], y, ys => ⟨(joinSegs (y :: ys)).data, rfl⟩
  | [a], y, ys => by
    refine ⟨("/" ++ joinSegs (y :: ys)).data, ?_⟩
    show (joinSegs (a :: y :: ys)).data = (joinSegs [a]).data ++ ("/" ++ joinSegs (y :: ys)).data
    rw [joinSegs_cons_cons]
    simp [joinSegs, String.data_append, List.append_assoc]
  | a :: b :: bs, y, ys => by
    obtain ⟨t, ht⟩ := joinSegs_data (b :: bs) y ys
    refine ⟨t, ?_⟩
    simp only [List.cons_append] at ht ⊢
    rw [joinSegs_cons_cons, joinSegs_cons_cons]
    simp only [String.data_append]
    rw [ht]
    simp [List.append_assoc]

lemma startsWith_segs (xs ys : List String) :
    jsStartsWith (segsToString (xs ++ ys)) (segsToString xs) = true := by
  cases ys with
  | nil =>
    rw [List.append_nil]
    unfold jsStartsWith
    have h := isPrefixOf_append_self (segsToString xs).data []
    rwa [List.append_nil] at h
  | cons y ys =>
    obtain ⟨t, ht⟩ := joinSegs_data xs y ys
    unfold jsStartsWith segsToString
    rw [String.data_append, String.data_append, ht, ← List.append_assoc]
    exact isPrefixOf_append_self _ _

/-- C1 (code bug): a request whose resolved absolute path lies outside the
public root is not always rejected.  With the public root `/srv/public`,
the URL `/../publicX/a.txt` resolves to `/srv/publicX/a.txt` — outside the
root (the root's segments are not a prefix of its segments) — yet the
`startsWith` guard passes because the sibling directory name shares the
root's string prefix, so the server reads the file and answers 200, not
403. -/
theorem c1_escape_outside_root_served :
    (resolveSegs "/srv" "public").isPrefixOf
      (resolveSegs (segsToString (resolveSegs "/srv" "public")) ("." ++ "/../publicX/a.txt"))
        = false ∧
    (serve "/srv" ⟨[("/srv/publicX/a.txt", "secret")]⟩
      ⟨"GET", "/../publicX/a.txt"⟩).status = 200 ∧
    (serve "/srv" ⟨[("/srv/publicX/a.txt", "secret")]⟩
      ⟨"GET", "/../publicX/a.txt"⟩).readPath = some "/srv/publicX/a.txt" := by
  refine ⟨by decide, by decide, by decide⟩

/-- C6: a request path that resolves inside the public root (its resolved
segments extend the root's segments) to an existing readable file is
answered 200, with the content type looked up from the file's extension
in the fixed MIME table and `application/octet-stream` when the extension
is absent from the table. -/
theorem c6_inside_root_served_with_mime (dirname url : String) (fs : FS) (m : String)
    (rest : List String) (data : String)
    (hin : resolveSegs (segsToString (resolveSegs dirname "public"))
            ("." ++ (if url = "/" then "/index.html" else url))
          = resolveSegs dirname "public" ++ rest)
    (hfile : fs.files.lookup (segsToString (resolveSegs dirname "public" ++ rest))
          = some data) :
    (serve dirname fs ⟨m, url⟩).status = 200 ∧
    (serve dirname fs ⟨m, url⟩).contentType =
      some ((mimeTypes.lookup
        (extname (segsToString (resolveSegs dirname "public" ++ rest)))).getD
          "application/octet-stream") ∧
    (serve dirname fs ⟨m, url⟩).body = data := by
  unfold serve
  simp only [hin, startsWith_segs, Bool.not_true, Bool.false_eq_true, if_false, hfile]
  exact ⟨by trivial, by trivial, by trivial⟩

/-- Witness for C6 at the default document: with root `/srv/public` and an
existing `/srv/public/index.html`, the URL `/` is served with status 200
and content type `text/html`. -/
theorem c6_witness :
    (serve "/srv" ⟨[("/srv/public/index.html", "hello")]⟩ ⟨"GET", "/"⟩).status = 200 ∧
    (serve "/srv" ⟨[("/srv/public/index.html", "hello")]⟩ ⟨"GET", "/"⟩).contentType =
      some "text/html" ∧
    (serve "/srv" ⟨[("/srv/public/index.html", "hello")]⟩ ⟨"GET", "/"⟩).body = "hello" := by
  have h := c6_inside_root_served_with_mime "/srv" "/"
    ⟨[("/srv/public/index.html", "hello")]⟩ "GET" ["index.html"] "hello"
    (by decide) (by decide)
  exact ⟨h.1, h.2.1.trans (by decide), h.2.2⟩

/-- C10: the static server's response, including whether and what it
reads, depends only on the request URL and the filesystem, never on the
HTTP method. -/
theorem c10_method_independent (dirname : String) (fs : FS) (m1 m2 url : String) :
    serve dirname fs ⟨m1, url⟩ = serve dirname fs ⟨m2, url⟩ := rfl

end StaticServer

namespace FormService

lemma jsFalsy_false {x : Option String} (h : jsFalsy x = false) : x.getD "" ≠ "" := by
  cases x with
  | none => simp [jsFalsy] at h
  | some s =>
    simp [jsFalsy] at h
    simpa using h

lemma submit_state_valid (writeOk : Bool) (now : Nat) (nowISO : String)
    (st : FileState) (body : SubmitBody)
    (hn : jsFalsy body.name = false) (he : jsFalsy body.email = false) :
    (submit writeOk now nowISO st body).state
      = writeData writeOk st (readData st ++ [mkRecord now nowISO body]) := by
  unfold submit mkRecord
  simp [hn, he]

lemma submit_location_valid (writeOk : Bool) (now : Nat) (nowISO : String)
    (st : FileState) (body : SubmitBody)
    (hn : jsFalsy body.name = false) (he : jsFalsy body.email = false) :
    (submit writeOk now nowISO st body).location = "/display" := by
  unfold submit
  simp [hn, he]

/-- C2 (counterexample): when reading the backing document fails (the
document is unreadable or unparsable), `GET /api/data` does not answer
status 500: `readData` swallows the error and returns the empty
collection, so the response is status 200 with an empty listing. -/
theorem c2_read_failure_not_500 :
    (apiData FileState.corrupt).1.status = 200 ∧
    (apiData FileState.corrupt).1.body = [] ∧
    ¬ (apiData FileState.corrupt).1.status = 500 := by
  refine ⟨rfl, rfl, by decide⟩

/-- C2 (amended): `GET /api/data` always answers status 200 with exactly
the collection `readData` yields; on a read failure `readData` falls back
to the empty collection, so the client sees 200 with an empty listing and
the status-500 error branch never runs. -/
theorem c2_api_data_always_200 (st : FileState) :
    (apiData st).1.status = 200 ∧
    (apiData st).1.body = readData st ∧
    (apiData FileState.corrupt).1.body = [] :=
  ⟨rfl, rfl, rfl⟩

/-- C4: a submission whose name or email is absent or empty is redirected
back to the form with the fixed error message and the backing document is
left exactly as it was. -/
theorem c4_invalid_submit_rejected (writeOk : Bool) (now : Nat) (nowISO : String)
    (st : FileState) (body : SubmitBody)
    (h : jsFalsy body.name = true ∨ jsFalsy body.email = true) :
    (submit writeOk now nowISO st body).location = "/?message=Name and email are required" ∧
    (submit writeOk now nowISO st body).state = st := by
  unfold submit
  rcases h with h | h <;> simp [h]

/-- Witness for C4: submitting with no name and a non-empty email leaves
the document unchanged and redirects to the form with the error message. -/
theorem c4_witness :
    (submit true 5 "t" (FileState.present []) ⟨none, some "ada@example.com", some "1", none⟩).location
      = "/?message=Name and email are required" ∧
    (submit true 5 "t" (FileState.present []) ⟨none, some "ada@example.com", some "1", none⟩).state
      = FileState.present [] :=
  c4_invalid_submit_rejected true 5 "t" (FileState.present [])
    ⟨none, some "ada@example.com", some "1", none⟩ (Or.inl (by decide))

/-- C5: if every record of the persisted collection has non-empty name
and email, then after any `POST /submit` — the only writer of the
document — every record still has non-empty name and email: a rejected
submission leaves the document unchanged, and an accepted one appends a
record whose name and email passed the non-falsy check. -/
theorem c5_invariant_preserved (writeOk : Bool) (now : Nat) (nowISO : String)
    (st : FileState) (body : SubmitBody)
    (hinv : ∀ r ∈ readData st, r.name ≠ "" ∧ r.email ≠ "") :
    ∀ r ∈ readData (submit writeOk now nowISO st body).state,
      r.name ≠ "" ∧ r.email ≠ "" := by
  intro r hr
  cases hn : jsFalsy body.name with
  | true =>
    unfold submit at hr
    simp [hn] at hr
    exact hinv r hr
  | false =>
    cases he : jsFalsy body.email with
    | true =>
      unfold submit at hr
      simp [hn, he] at hr
      exact hinv r hr
    | false =>
      rw [submit_state_valid writeOk now nowISO st body hn he] at hr
      cases writeOk with
      | false =>
        simp [writeData] at hr
        exact hinv r hr
      | true =>
        simp [writeData, readData] at hr
        rcases hr with hr | hr
        · exact hinv r hr
        · subst hr
          exact ⟨jsFalsy_false hn, jsFalsy_false he⟩

/-- Witness for C5: starting from a document with one well-formed record,
the record appended for Ada also has non-empty name and email. -/
theorem c5_witness :
    (⟨7, "Ada", "ada@example.com", "", "", "ts"⟩ : Submission).name ≠ "" ∧
    (⟨7, "Ada", "ada@example.com", "", "", "ts"⟩ : Submission).email ≠ "" :=
  c5_invariant_preserved true 7 "ts"
    (FileState.present [⟨1, "Bob", "bob@example.com", "", "", "t0"⟩])
    ⟨some "Ada", some "ada@example.com", none, none⟩ (by decide)
    ⟨7, "Ada", "ada@example.com", "", "", "ts"⟩ (by decide)

/-- C7: `GET /display` renders exactly the reverse of the stored
collection (most recently appended first) while `GET /api/data` returns
the stored collection in its original order, so the two listings are
reverses of each other. -/
theorem c7_display_reverse_of_api (st : FileState) :
    (getDisplay st).1.submissions = (readData st).reverse ∧
    (apiData st).1.body = readData st ∧
    ((getDisplay st).1.submissions).reverse = (apiData st).1.body := by
  refine ⟨rfl, rfl, ?_⟩
  simp [getDisplay, apiData]

/-- C9: the three GET routes of the form service leave the backing
document unchanged; only `POST /submit` can rewrite it. -/
theorem c9_get_routes_preserve_document (st : FileState) (msg : Option String) :
    (getForm st msg).2 = st ∧ (getDisplay st).2 = st ∧ (apiData st).2 = st :=
  ⟨rfl, rfl, rfl⟩

end FormService

namespace FormService

/-- C3 (counterexample): the identifier of an appended record is
`Date.now()`, so it need not be unique within the collection: if an
existing record already carries id 1000 and Ada submits at millisecond
1000, the collection afterwards holds two records with id 1000. -/
theorem c3_duplicate_id :
    ((readData (submit true 1000 "2024-01-01T00:00:00.000Z"
        (FileState.present
          [⟨1000, "Bob", "bob@example.com", "", "", "2023-12-31T23:59:59.000Z"⟩])
        ⟨some "Ada", some "ada@example.com", none, none⟩).state).map Submission.id)
      = [1000, 1000] ∧
    ¬ ((readData (submit true 1000 "2024-01-01T00:00:00.000Z"
        (FileState.present
          [⟨1000, "Bob", "bob@example.com", "", "", "2023-12-31T23:59:59.000Z"⟩])
        ⟨some "Ada", some "ada@example.com", none, none⟩).state).map Submission.id).Nodup := by
  refine ⟨by decide, by decide⟩

/-- C3 (amended): a `POST /submit` with non-empty name and email and a
succeeding write appends exactly one record — carrying the submitted name
and email, phone and message via `x || ''` (so empty when absent), the
ISO timestamp, and identifier `Date.now()` — and the collection grows by
exactly one; the new identifier is unique within the collection only when
no existing record already carries the current millisecond as id.  The
route then redirects to the listing page. -/
theorem c3_valid_submit_appends_one (now : Nat) (nowISO : String)
    (st : FileState) (body : SubmitBody)
    (hn : jsFalsy body.name = false) (he : jsFalsy body.email = false) :
    (submit true now nowISO st body).state
        = FileState.present (readData st ++ [mkRecord now nowISO body]) ∧
    (readData (submit true now nowISO st body).state).length = (readData st).length + 1 ∧
    ((mkRecord now nowISO body).name = body.name.getD "" ∧
      (mkRecord now nowISO body).email = body.email.getD "" ∧
      (mkRecord now nowISO body).phone = jsOr body.phone ∧
      (mkRecord now nowISO body).message = jsOr body.message ∧
      (mkRecord now nowISO body).timestamp = nowISO ∧
      (mkRecord now nowISO body).id = now ∧
      jsOr (none : Option String) = "") ∧
    (now ∉ (readData st).map Submission.id →
      ((readData (submit true now nowISO st body).state).map Submission.id).count now = 1) ∧
    (submit true now nowISO st body).location = "/display" := by
  have hstate := submit_state_valid true now nowISO st body hn he
  have hstate' : (submit true now nowISO st body).state
      = FileState.present (readData st ++ [mkRecord now nowISO body]) := by
    rw [hstate]; rfl
  refine ⟨hstate', ?_, ⟨rfl, rfl, rfl, rfl, rfl, rfl, rfl⟩, ?_, submit_location_valid true now nowISO st body hn he⟩
  · rw [hstate']
    simp [readData]
  · intro hnot
    rw [hstate']
    simp only [readData, List.map_append]
    rw [List.count_append, List.count_eq_zero.mpr (by simpa using hnot)]
    simp [mkRecord]

/-- Witness for C3 (amended): Ada's submission at millisecond 5 into an
absent document yields exactly the one expected record, whose id occurs
once. -/
theorem c3_witness :
    (submit true 5 "2024-05-05T00:00:00.000Z" FileState.absent
        ⟨some "Ada", some "ada@example.com", none, none⟩).state
      = FileState.present
          [⟨5, "Ada", "ada@example.com", "", "", "2024-05-05T00:00:00.000Z"⟩] ∧
    ((readData (submit true 5 "2024-05-05T00:00:00.000Z" FileState.absent
        ⟨some "Ada", some "ada@example.com", none, none⟩).state).map Submission.id).count 5
      = 1 := by
  have h := c3_valid_submit_appends_one 5 "2024-05-05T00:00:00.000Z" FileState.absent
    ⟨some "Ada", some "ada@example.com", none, none⟩ (by decide) (by decide)
  exact ⟨h.1.trans (by decide), h.2.2.2.1 (by decide)⟩

lemma submitAll_readData (inputs : List (Nat × String × SubmitBody)) :
    ∀ st : FileState,
      (∀ x ∈ inputs, jsFalsy x.2.2.name = false ∧ jsFalsy x.2.2.email = false) →
      readData (submitAll st inputs)
        = readData st ++ inputs.map (fun x => mkRecord x.1 x.2.1 x.2.2) := by
  induction inputs with
  | nil =>
    intro st _
    simp [submitAll]
  | cons hd rest ih =>
    intro st hv
    obtain ⟨now, iso, body⟩ := hd
    have hn := (hv (now, iso, body) (by simp)).1
    have he := (hv (now, iso, body) (by simp)).2
    show readData (submitAll (submit true now iso st body).state rest) = _
    rw [ih _ (fun x hx => hv x (by simp [hx]))]
    rw [submit_state_valid true now iso st body hn he]
    simp [writeData, readData]

/-- C8: starting from a backing document holding no records, posting a
sequence of valid submissions one after the other, with every write
succeeding, leaves the document holding exactly one record per
submission, in order, each built from its input; `GET /api/data` then
returns exactly that list. -/
theorem c8_round_trip (inputs : List (Nat × String × SubmitBody)) (st : FileState)
    (hst : readData st = [])
    (hv : ∀ x ∈ inputs, jsFalsy x.2.2.name = false ∧ jsFalsy x.2.2.email = false) :
    (apiData (submitAll st inputs)).1.body
        = inputs.map (fun x => mkRecord x.1 x.2.1 x.2.2) ∧
    (readData (submitAll st inputs)).length = inputs.length := by
  have h := submitAll_readData inputs st hv
  rw [hst] at h
  constructor
  · show readData (submitAll st inputs) = _
    rw [h]
    simp
  · rw [h]
    simp

/-- Witness for C8: two valid submissions into an absent document
round-trip through the raw listing endpoint as exactly the two expected
records. -/
theorem c8_witness :
    (apiData (submitAll FileState.absent
      [(1, "t1", ⟨some "Ada", some "ada@example.com", none, none⟩),
       (2, "t2", ⟨some "Bob", some "bob@example.com", some "123", some "hi"⟩)])).1.body
      = [⟨1, "Ada", "ada@example.com", "", "", "t1"⟩,
         ⟨2, "Bob", "bob@example.com", "123", "hi", "t2"⟩] ∧
    (readData (submitAll FileState.absent
      [(1, "t1", ⟨some "Ada", some "ada@example.com", none, none⟩),
       (2, "t2", ⟨some "Bob", some "bob@example.com", some "123", some "hi"⟩)])).length
      = 2 := by
  have h := c8_round_trip
    [(1, "t1", ⟨some "Ada", some "ada@example.com", none, none⟩),
     (2, "t2", ⟨some "Bob", some "bob@example.com", some "123", some "hi"⟩)]
    FileState.absent (by decide) (by decide)
  exact ⟨h.1.trans (by decide), h.2⟩

end FormService
